import Mathlib

/-!
Verification development for the webwraith CSS engine.

This file gives a shallow embedding, in Lean, of the CSS grammar parser
(src/css.rs), the generic character scanner (src/parser.rs), the DOM
accessors (src/dom.rs) and the cascade/style resolver (src/style.rs),
and proves the central correctness and error-behaviour properties of
those components.

Modelling conventions:
* Rust `String` input and byte positions are modelled by `List Char`
  with character positions (all behaviour under scrutiny is ASCII,
  where the two coincide).
* Fallible Rust code (`Result`) is modelled by `PResult`; a Rust
  `panic` (from `unwrap`, `assert_eq!`, `todo!`, a failed slice index
  or an explicit `panic!`) is modelled by the distinguished outcome
  `PResult.panic`, which propagates through everything.
* The source's unbounded `loop`s are modelled with an explicit fuel
  parameter; running out of fuel is also a `PResult.panic`, so no
  theorem conditioned on an `ok` outcome is affected by fuel.
* Rust `HashMap`s (`AttrMap`, `PropertyMap`) are modelled as lookup
  functions `String → Option _` (only lookup and insert-overwrite are
  ever used by the code under scrutiny); the `HashSet` of class names
  is modelled as a `List` (only membership is ever observed).
* Rust's stable sorts (`sort_by` / `sort_by_key`) are modelled by
  `List.insertionSort`, which has identical stable-sort semantics.
* `f32` values never flow into any property under scrutiny, so a
  `Length`'s numeric part is kept as its source text together with the
  exact success condition of `str::parse::<f32>` on digit/dot strings.
-/

namespace Webwraith

/-! ### Value model (src/css.rs) -/

/-- The `Color` struct from src/css.rs; `u8` channels are `Nat`s
(the parser only ever produces values `< 256`). -/
structure Color where
  r : Nat
  g : Nat
  b : Nat
  a : Nat
deriving Repr, DecidableEq

/-- The `Unit` enum from src/css.rs (named `CssUnit` because `Unit` is taken
by Lean's core library). -/
inductive CssUnit where
  | Px
deriving Repr, DecidableEq

/-- The `Value` enum from src/css.rs.  The `f32` of `Length` is kept as the
numeric source text consumed by `parse_float` (see module comment). -/
inductive Value where
  | Keyword (s : String)
  | Length (num : List Char) (unit : CssUnit)
  | ColorValue (c : Color)
deriving Repr, DecidableEq

/-! ### Selector and rule model (src/css.rs) -/

/-- The `SimpleSelector` struct from src/css.rs.  The source field `class`
is named `classes` here because `class` is a Lean keyword. -/
structure SimpleSelector where
  tag_name : Option String
  id : Option String
  classes : List String
deriving Repr, DecidableEq

/-- The `Selector` enum from src/css.rs. -/
inductive Selector where
  | Simple (s : SimpleSelector)
deriving Repr, DecidableEq

/-- The `Declaration` struct from src/css.rs. -/
structure Declaration where
  name : String
  value : Value
deriving Repr, DecidableEq

/-- The `Rule` struct from src/css.rs. -/
structure Rule where
  selectors : List Selector
  declarations : List Declaration
deriving Repr, DecidableEq

/-- The `Stylesheet` struct from src/css.rs. -/
structure Stylesheet where
  rules : List Rule
deriving Repr, DecidableEq

/-- The `Specificity` type alias from src/css.rs: `(usize, usize, usize)`. -/
abbrev Specificity := Nat × Nat × Nat

/-- The `Option::iter().count()`: 0 for `None`, 1 for `Some`. -/
def optCount : Option α → Nat
  | none => 0
  | some _ => 1

/-- The `Selector::specificity` from src/css.rs:
`(id.iter().count(), class.len(), tag_name.iter().count())`. -/
def Selector.specificity : Selector → Specificity
  | .Simple simple => (optCount simple.id, simple.classes.length, optCount simple.tag_name)

/-- The order Rust's derived `Ord` gives to the `(usize, usize, usize)`
specificity tuple: lexicographic comparison; `specLe x y` is
`x.cmp(&y) != Greater`, i.e. `x ≤ y`. -/
def specLe (x y : Specificity) : Prop :=
  x.1 < y.1 ∨ (x.1 = y.1 ∧ (x.2.1 < y.2.1 ∨ (x.2.1 = y.2.1 ∧ x.2.2 ≤ y.2.2)))

instance : DecidableRel specLe := fun x y => by
  unfold specLe; infer_instance

/-! ### Character scanner (src/parser.rs) -/

/-- The parser state shared by the `Parser` trait in src/parser.rs:
a position and the input text. -/
structure PState where
  position : Nat
  input : List Char
deriving Repr, DecidableEq

def PState.ofStr (s : String) : PState := ⟨0, s.toList⟩

/-- Outcome of a fallible parsing operation.  `ok`/`err` mirror Rust's
`Ok`/`Err` (the state travels with the outcome); `panic` models a Rust
process abort (`unwrap` on an `Err`, a failed `assert_eq!`, `todo!()`,
an out-of-bounds slice, or an explicit `panic!`). -/
inductive PResult (α : Type) where
  | ok (a : α) (s : PState)
  | err (e : String) (s : PState)
  | panic (msg : String)
deriving Repr, DecidableEq

/-- Rust's `?` operator: propagate `Err` (and any panic). -/
def PResult.andThen : PResult α → (α → PState → PResult β) → PResult β
  | .ok a s, f => f a s
  | .err e s, _ => .err e s
  | .panic m, _ => .panic m

/-- Rust's `.unwrap()` on a `Result`, followed by a continuation:
an `Err` becomes a panic carrying the error message. -/
def PResult.unwrapThen : PResult α → (α → PState → PResult β) → PResult β
  | .ok a s, f => f a s
  | .err e _, _ => .panic e
  | .panic m, _ => .panic m

/-- The `Parser::eof`: `current_position >= input.len()`. -/
def eof (s : PState) : Bool := s.input.length ≤ s.position

/-- The `Parser::next_char`: peek the next character without advancing. -/
def next_char (s : PState) : PResult Char :=
  if eof s then .err ("No more characters in input string") s
  else
    match (s.input.drop s.position).head? with
    | some c => .ok c s
    | none => .err ("Failed to get next character") s

/-- The `Parser::consume_char`: return the next character and advance past it. -/
def consume_char (s : PState) : PResult Char :=
  match (s.input.drop s.position).head? with
  | none => .err ("No more characters in the input string") s
  | some c => .ok c { s with position := s.position + 1 }

/-- The loop inside `Parser::consume_while`: take the maximal prefix of
the remaining input satisfying `cond`, returning it and its length. -/
def consume_while_aux (cond : Char → Bool) : List Char → List Char × Nat
  | [] => ([], 0)
  | c :: cs =>
    if cond c then
      let r := consume_while_aux cond cs
      (c :: r.1, r.2 + 1)
    else ([], 0)

/-- The `Parser::consume_while`: consume characters while `cond` holds.
The source loop can never return `Err` (the inner `consume_char` is
only called after a successful `next_char`), so the result is pure. -/
def consume_while (cond : Char → Bool) (s : PState) : List Char × PState :=
  let r := consume_while_aux cond (s.input.drop s.position)
  (r.1, { s with position := s.position + r.2 })

/-- Rust `char::is_whitespace`: the Unicode `White_Space` property —
U+0009–U+000D, U+0020, U+0085, U+00A0, U+1680, U+2000–U+200A, U+2028,
U+2029, U+202F, U+205F and U+3000.  (Lean's `Char.isWhitespace` covers
only space, tab, CR and LF, so it is not a faithful model.) -/
def rust_is_whitespace (c : Char) : Bool :=
  (0x9 ≤ c.toNat && c.toNat ≤ 0xD) || c = ' '
    || c.toNat = 0x85 || c.toNat = 0xA0 || c.toNat = 0x1680
    || (0x2000 ≤ c.toNat && c.toNat ≤ 0x200A)
    || c.toNat = 0x2028 || c.toNat = 0x2029 || c.toNat = 0x202F
    || c.toNat = 0x205F || c.toNat = 0x3000

/-- The `Parser::consume_whitespace`: `consume_while(char::is_whitespace)`. -/
def consume_whitespace (s : PState) : PState :=
  (consume_while rust_is_whitespace s).2

/-- The `valid_identifier_char` from src/css.rs. -/
def valid_identifier_char (c : Char) : Bool :=
  ('a' ≤ c && c ≤ 'z') || ('A' ≤ c && c ≤ 'Z') || ('0' ≤ c && c ≤ '9')
    || c = '-' || c = '_'

/-! ### CSS grammar parser (src/css.rs, `impl CssParser`) -/

/-- The `CssParser::parse_identifier`: `consume_while(valid_identifier_char)`
(always succeeds, possibly with the empty identifier). -/
def parse_identifier (s : PState) : PResult String :=
  let r := consume_while valid_identifier_char s
  .ok (String.mk r.1) r.2

/-- The `while !self.eof()` loop of `CssParser::parse_simple_selector`,
with its accumulated selector.  Each arm mirrors a `match self.next_char()`
arm of the source; the wildcard arm (any other character, or an `Err`
from `next_char`) breaks out of the loop. -/
def parse_simple_selector_loop : Nat → SimpleSelector → PState → PResult SimpleSelector
  | 0, _, _ => .panic ("out of fuel")
  | fuel + 1, sel, s =>
    if eof s then .ok sel s
    else
      match next_char s with
      | .panic m => .panic m
      | .err _ _ => .ok sel s
      | .ok c _ =>
        if c = '#' then
          (consume_char s).andThen fun _ s1 =>
            (parse_identifier s1).unwrapThen fun ident s2 =>
              parse_simple_selector_loop fuel { sel with id := some ident } s2
        else if c = '.' then
          (consume_char s).andThen fun _ s1 =>
            (parse_identifier s1).unwrapThen fun ident s2 =>
              parse_simple_selector_loop fuel { sel with classes := sel.classes ++ [ident] } s2
        else if c = '*' then
          (consume_char s).andThen fun _ s1 =>
            parse_simple_selector_loop fuel sel s1
        else if valid_identifier_char c then
          (parse_identifier s).unwrapThen fun ident s1 =>
            parse_simple_selector_loop fuel { sel with tag_name := some ident } s1
        else .ok sel s

/-- The `CssParser::parse_simple_selector`. -/
def parse_simple_selector (fuel : Nat) (s : PState) : PResult SimpleSelector :=
  parse_simple_selector_loop fuel ⟨none, none, []⟩ s

/-- The `loop` of `CssParser::parse_selectors`, accumulating the
selectors in source order (before the final sort). -/
def parse_selectors_loop : Nat → List Selector → PState → PResult (List Selector)
  | 0, _, _ => .panic ("out of fuel")
  | fuel + 1, acc, s =>
    (parse_simple_selector (fuel + 1) s).unwrapThen fun simple s1 =>
      let acc1 := acc ++ [Selector.Simple simple]
      let s2 := consume_whitespace s1
      match next_char s2 with
      | .panic m => .panic m
      | .err _ _ => .ok acc1 s2
      | .ok c _ =>
        if c = ',' then
          (consume_char s2).andThen fun _ s3 =>
            parse_selectors_loop fuel acc1 (consume_whitespace s3)
        else if c = '{' then .ok acc1 s2
        else .panic ("Unexpected character in selector list")

/-- The final line of `CssParser::parse_selectors`:
`selectors.sort_by_key(|b| std::cmp::Reverse(b.specificity()))`.
Rust's sort is stable; its stable descending-by-specificity sort is
modelled by the (stable) insertion sort with the matching total
preorder `specificity b ≤ specificity a`. -/
def sortSelectorsDesc (sels : List Selector) : List Selector :=
  List.insertionSort (fun a b => specLe b.specificity a.specificity) sels

/-- The `CssParser::parse_selectors`. -/
def parse_selectors (fuel : Nat) (s : PState) : PResult (List Selector) :=
  match parse_selectors_loop fuel [] s with
  | .ok sels s1 => .ok (sortSelectorsDesc sels) s1
  | .err e s1 => .err e s1
  | .panic m => .panic m

/-- The value of `u8::from_str_radix(d, 16)` on a single character. -/
def hex_digit_val (c : Char) : Option Nat :=
  if '0' ≤ c ∧ c ≤ '9' then some (c.toNat - '0'.toNat)
  else if 'a' ≤ c ∧ c ≤ 'f' then some (c.toNat - 'a'.toNat + 10)
  else if 'A' ≤ c ∧ c ≤ 'F' then some (c.toNat - 'A'.toNat + 10)
  else none

/-- The `u8::from_str_radix(s, 16)` on the two-character slice taken by
`parse_hex_pair` (`from_str_radix` also accepts a leading plus sign). -/
def from_str_radix16 (c1 c2 : Char) : Option Nat :=
  if c1 = '+' then hex_digit_val c2
  else
    match hex_digit_val c1, hex_digit_val c2 with
    | some h, some l => some (16 * h + l)
    | _, _ => none

/-- The `CssParser::parse_hex_pair`: slice `input[position..position + 2]`
(a Rust panic when out of bounds), advance by 2, and `unwrap` the
`from_str_radix` result (a Rust panic when not a radix-16 number). -/
def parse_hex_pair (s : PState) : PResult Nat :=
  match s.input[s.position]?, s.input[s.position + 1]? with
  | some c1, some c2 =>
    match from_str_radix16 c1 c2 with
    | some n => .ok n { s with position := s.position + 2 }
    | none => .panic ("invalid digit found in string")
  | _, _ => .panic ("byte index out of bounds")

/-- The `CssParser::parse_color`: `assert_eq!(self.consume_char()?, '#')`
then three hex pairs with alpha fixed to 255. -/
def parse_color (s : PState) : PResult Value :=
  (consume_char s).andThen fun c s1 =>
    if c = '#' then
      (parse_hex_pair s1).andThen fun r s2 =>
        (parse_hex_pair s2).andThen fun g s3 =>
          (parse_hex_pair s3).andThen fun b s4 =>
            .ok (Value.ColorValue ⟨r, g, b, 255⟩) s4
    else .panic ("assertion failed")

/-- Success condition of Rust `str::parse::<f32>` on a string made only
of digits and dots (all `parse_float` can consume): at least one digit
and at most one decimal point. -/
def float_str_ok (cs : List Char) : Bool :=
  cs.any (fun c => '0' ≤ c && c ≤ '9') && (cs.filter (fun c => c = '.')).length ≤ 1

/-- The `CssParser::parse_float`: consume `[0-9.]*`, then `s.parse().unwrap()`
(a Rust panic when the text is not a valid float literal).  The numeric
text itself is returned (see module comment). -/
def parse_float (s : PState) : PResult (List Char) :=
  let r := consume_while (fun c => ('0' ≤ c && c ≤ '9') || c = '.') s
  if float_str_ok r.1 then .ok r.1 r.2 else .panic ("invalid float literal")

/-- Rust `char::to_ascii_lowercase`. -/
def char_to_ascii_lowercase (c : Char) : Char :=
  if 'A' ≤ c ∧ c ≤ 'Z' then Char.ofNat (c.toNat + 32) else c

/-- The `CssParser::parse_unit`: a case-insensitive (`to_ascii_lowercase`)
`px` is the only unit. -/
def parse_unit (s : PState) : PResult CssUnit :=
  (parse_identifier s).andThen fun ident s1 =>
    if ident.toList.map char_to_ascii_lowercase = ['p', 'x'] then .ok CssUnit.Px s1
    else .err ("unrecognized unit") s1

/-- The `CssParser::parse_length`: `Length(parse_float().unwrap(), parse_unit()?)`. -/
def parse_length (s : PState) : PResult Value :=
  (parse_float s).unwrapThen fun num s1 =>
    (parse_unit s1).andThen fun u s2 =>
      .ok (Value.Length num u) s2

/-- The `CssParser::parse_value`: digit starts a length, `#` a color, and
anything else (including end of input) a keyword. -/
def parse_value (s : PState) : PResult Value :=
  match next_char s with
  | .panic m => .panic m
  | .err _ s1 =>
    (parse_identifier s1).andThen fun ident s2 => .ok (Value.Keyword ident) s2
  | .ok c _ =>
    if '0' ≤ c ∧ c ≤ '9' then parse_length s
    else if c = '#' then parse_color s
    else (parse_identifier s).andThen fun ident s2 => .ok (Value.Keyword ident) s2

/-- The `CssParser::parse_declaration`:
`identifier`, `assert_eq!(consume_char()?, ':')`, `parse_value().unwrap()`,
`assert_eq!(consume_char()?, ';')`. -/
def parse_declaration (s : PState) : PResult Declaration :=
  (parse_identifier s).unwrapThen fun property_name s1 =>
    (consume_char (consume_whitespace s1)).andThen fun c s2 =>
      if c = ':' then
        (parse_value (consume_whitespace s2)).unwrapThen fun value s3 =>
          (consume_char (consume_whitespace s3)).andThen fun c2 s4 =>
            if c2 = ';' then .ok ⟨property_name, value⟩ s4
            else .panic ("assertion failed")
      else .panic ("assertion failed")

/-- The `loop` of `CssParser::parse_declarations`: stop at `}`,
otherwise `parse_declaration().unwrap()`. -/
def parse_declarations_loop : Nat → List Declaration → PState → PResult (List Declaration)
  | 0, _, _ => .panic ("out of fuel")
  | fuel + 1, acc, s =>
    let s1 := consume_whitespace s
    (next_char s1).andThen fun c s2 =>
      if c = '}' then
        (consume_char s2).andThen fun _ s3 => .ok acc s3
      else
        (parse_declaration s2).unwrapThen fun d s3 =>
          parse_declarations_loop fuel (acc ++ [d]) s3

/-- The `CssParser::parse_declarations`: `assert_eq!(consume_char()?, '{')`
then the declaration loop. -/
def parse_declarations (fuel : Nat) (s : PState) : PResult (List Declaration) :=
  (consume_char s).andThen fun c s1 =>
    if c = '{' then parse_declarations_loop fuel [] s1
    else .panic ("assertion failed")

/-- The `CssParser::parse_rule`:
`selectors: parse_selectors().unwrap(), declarations: parse_declarations()?`. -/
def parse_rule (fuel : Nat) (s : PState) : PResult Rule :=
  (parse_selectors fuel s).unwrapThen fun sels s1 =>
    (parse_declarations fuel s1).andThen fun decls s2 =>
      .ok ⟨sels, decls⟩ s2

/-- The `loop` of `CssParser::parse_rules`: skip whitespace, stop at end
of input, otherwise `parse_rule().unwrap()`. -/
def parse_rules_loop : Nat → List Rule → PState → PResult (List Rule)
  | 0, _, _ => .panic ("out of fuel")
  | fuel + 1, acc, s =>
    let s1 := consume_whitespace s
    if eof s1 then .ok acc s1
    else
      (parse_rule (fuel + 1) s1).unwrapThen fun r s2 =>
        parse_rules_loop fuel (acc ++ [r]) s2

/-- The public `parse` entry point of src/css.rs:
`Stylesheet { rules: parser.parse_rules().unwrap() }`.  The fuel
`length + 1` bounds the rule loop (every iteration consumes input). -/
def parse (source : String) : PResult Stylesheet :=
  let s := PState.ofStr source
  (parse_rules_loop (s.input.length + 1) [] s).unwrapThen fun rules s1 =>
    .ok ⟨rules⟩ s1

/-! ### DOM model (src/dom.rs) -/

/-- The `AttrMap` from src/dom.rs: a `HashMap<String, String>` with unique
keys, modelled as its lookup function. -/
abbrev AttrMap := String → Option String

/-- The `ElementData` struct from src/dom.rs. -/
structure ElementData where
  tag_name : String
  attributes : AttrMap

/-- The `NodeType` enum from src/dom.rs. -/
inductive NodeType where
  | Text (s : String)
  | Element (e : ElementData)
  | Comment (s : String)

/-- The `Node` struct from src/dom.rs (an inductive because the struct is
recursive through `children`). -/
inductive Node where
  | mk (children : List Node) (node_type : NodeType)

def Node.children : Node → List Node
  | .mk c _ => c

def Node.node_type : Node → NodeType
  | .mk _ t => t

/-- The `ElementData::id` from src/dom.rs: the `id` attribute. -/
def ElementData.id (e : ElementData) : Option String :=
  e.attributes ("id")

/-- Rust `str::split` with a separator predicate: the (possibly empty)
fragments between separator occurrences; the empty string yields one
empty fragment, exactly as in Rust. -/
def split_when (p : Char → Bool) : List Char → List (List Char)
  | [] => [[]]
  | c :: cs =>
    if p c then [] :: split_when p cs
    else
      match split_when p cs with
      | [] => [[c]]
      | frag :: frags => (c :: frag) :: frags

/-- The `ElementData::classes` from src/dom.rs:
`classlist.split(' ').collect::<HashSet<_>>()` — a split on the single
space character (the `HashSet` is modelled as the list of fragments,
since only membership is observed). -/
def ElementData.classes (e : ElementData) : List String :=
  match e.attributes ("class") with
  | some classlist => (split_when (fun c => c = ' ') classlist.toList).map String.mk
  | none => []

/-! ### Cascade resolver (src/style.rs) -/

/-- The `PropertyMap` from src/style.rs: a `HashMap<String, Value>`,
modelled as its lookup function. -/
abbrev PropertyMap := String → Option Value

/-- The `HashMap::new()`. -/
def pmEmpty : PropertyMap := fun _ => none

/-- The `HashMap::insert` (overwrites any existing entry for the key). -/
def pmInsert (k : String) (v : Value) (m : PropertyMap) : PropertyMap :=
  fun k' => if k' = k then some v else m k'

/-- The `matches_simple_selector` from src/style.rs. -/
def matches_simple_selector (elem : ElementData) (selector : SimpleSelector) : Bool :=
  -- Check type selector
  if selector.tag_name.any (fun name => elem.tag_name ≠ name) then false
  -- Check ID selector
  else if selector.id.any (fun i => elem.id ≠ some i) then false
  -- Check class selectors
  else if selector.classes.any (fun c => ¬ elem.classes.contains c) then false
  else true

/-- The `matches` from src/style.rs (named `matches_sel` because `matches`
is reserved syntax in Lean). -/
def matches_sel (elem : ElementData) : Selector → Bool
  | .Simple simple_selector => matches_simple_selector elem simple_selector

/-- The `MatchedRule` type alias from src/style.rs (`&Rule` becomes `Rule`). -/
abbrev MatchedRule := Specificity × Rule

/-- The `match_rule` from src/style.rs: the first (highest-specificity)
matching selector of the rule determines the reported specificity. -/
def match_rule (elem : ElementData) (rule : Rule) : Option MatchedRule :=
  (rule.selectors.find? (matches_sel elem)).map fun selector => (selector.specificity, rule)

/-- The `matching_rules` from src/style.rs: a linear filter over the
stylesheet's rules, preserving stylesheet order. -/
def matching_rules (elem : ElementData) (stylesheet : Stylesheet) : List MatchedRule :=
  stylesheet.rules.filterMap (match_rule elem)

/-- The `rules.sort_by(|&(a, _), &(b, _)| a.cmp(&b))` from `specified_values`:
Rust's stable ascending sort by specificity, modelled by the (stable)
insertion sort with the matching total preorder. -/
def sortMatchedAsc (rules : List MatchedRule) : List MatchedRule :=
  List.insertionSort (fun a b => specLe a.1 b.1) rules

/-- The `specified_values` from src/style.rs: sort the matched rules from
lowest to highest specificity, then insert every declaration of every
rule, in order, into the property map. -/
def specified_values (elem : ElementData) (stylesheet : Stylesheet) : PropertyMap :=
  (sortMatchedAsc (matching_rules elem stylesheet)).foldl
    (fun values sr =>
      sr.2.declarations.foldl (fun v d => pmInsert d.name d.value v) values)
    pmEmpty

/-- The `StyledNode` struct from src/style.rs (an inductive because it is
recursive through `children`; the `&'a Node` reference is the node value). -/
inductive StyledNode where
  | mk (node : Node) (spec_values : PropertyMap) (children : List StyledNode)

def StyledNode.node : StyledNode → Node
  | .mk n _ _ => n

def StyledNode.children : StyledNode → List StyledNode
  | .mk _ _ c => c

/-- The `specified_values` field initializer of `style_tree`
(src/style.rs): an element gets its cascade result, a text node an
empty map, and a comment node hits `todo!()` — a Rust panic, modelled
by `none`. -/
def node_pm (nt : NodeType) (stylesheet : Stylesheet) : Option PropertyMap :=
  match nt with
  | NodeType.Element e => some (specified_values e stylesheet)
  | NodeType.Text _ => some pmEmpty
  | NodeType.Comment _ => none

mutual

/-- The `style_tree` from src/style.rs.  A `none` anywhere in a subtree
aborts the whole resolution, exactly as the `todo!()` panic does. -/
def style_tree (root : Node) (stylesheet : Stylesheet) : Option StyledNode :=
  match root with
  | .mk children nt =>
    match node_pm nt stylesheet, style_children children stylesheet with
    | some sv, some cs => some (.mk (.mk children nt) sv cs)
    | _, _ => none

/-- The `root.children.iter().map(|child| style_tree(child, stylesheet))
.collect()` of `style_tree`. -/
def style_children (ns : List Node) (stylesheet : Stylesheet) : Option (List StyledNode) :=
  match ns with
  | [] => some []
  | n :: rest =>
    match style_tree n stylesheet, style_children rest stylesheet with
    | some sn, some srest => some (sn :: srest)
    | _, _ => none

end

/-! ### Specification-side definitions

These definitions are *not* translations of the source: they formalize
the wording of individual spec claims, for comparison against the
source-derived definitions above. -/

/-- Spec-side: the value of the *last* declaration of property `p` in a
declaration list (the spec's "among multiple declarations of the same
property inside one rule, the last one in that rule wins"). -/
def last_decl_value (p : String) : List Declaration → Option Value
  | [] => none
  | d :: ds =>
    match last_decl_value p ds with
    | some v => some v
    | none => if d.name = p then some d.value else none

/-- Spec-side: the cascade winner for property `p` among a matched-rule
list given in stylesheet order, per the claim's words: the value comes
from the highest-specificity matching rule that declares `p`; among
rules of equal specificity, the one declared later in the stylesheet;
within that rule, its last declaration of `p`.  (An earlier rule only
beats the best later candidate when its specificity is strictly
greater.) -/
def cascade_pick (p : String) : List MatchedRule → Option (Specificity × Value)
  | [] => none
  | (s, r) :: rest =>
    match cascade_pick p rest, last_decl_value p r.declarations with
    | none, none => none
    | none, some v => some (s, v)
    | some sv, none => some sv
    | some (s', v'), some v => if specLe s s' then some (s', v') else some (s, v)

/-- The (specificity, value) pair of the *last* rule in a matched-rule
list that declares `p` — the binding a left-to-right insertion walk
leaves in the property map.  Proof-side bridge between
`specified_values` and `cascade_pick`. -/
def lastPick (p : String) : List MatchedRule → Option (Specificity × Value)
  | [] => none
  | (s, r) :: rest =>
    match lastPick p rest with
    | some sv => some sv
    | none => (last_decl_value p r.declarations).map fun v => (s, v)

/-- Spec-side: structural isomorphism between a resolved style tree and
its source document tree — the resolved node references its source node
and has children matching the source node's children 1:1, in order,
recursively. -/
inductive Iso : StyledNode → Node → Prop where
  | mk : ∀ (t : Node) (sv : PropertyMap) (cs : List StyledNode),
      List.Forall₂ Iso cs t.children → Iso (.mk t sv cs) t

/-- Spec-side: `true` unless the node type is a comment. -/
def not_comment : NodeType → Bool
  | NodeType.Text _ => true
  | NodeType.Element _ => true
  | NodeType.Comment _ => false

mutual

/-- Spec-side: a document tree with no comment node anywhere. -/
def comment_free : Node → Bool
  | .mk children nt => not_comment nt && comment_free_list children

def comment_free_list : List Node → Bool
  | [] => true
  | n :: ns => comment_free n && comment_free_list ns

end

/-- Spec-side (claim C9's words): the `class` attribute whitespace-split
into a set of class names, empty when the attribute is absent. -/
def classes_spec_ws (e : ElementData) : List String :=
  match e.attributes ("class") with
  | some classlist => (split_when Char.isWhitespace classlist.toList).map String.mk
  | none => []

/-! ### Order-theoretic instances for the sort relations -/

instance : IsTotal MatchedRule (fun a b => specLe a.1 b.1) :=
  ⟨fun a b => by unfold specLe; omega⟩

instance : IsTrans MatchedRule (fun a b => specLe a.1 b.1) :=
  ⟨fun a b c h1 h2 => by unfold specLe at *; omega⟩

instance : IsTotal Selector (fun a b => specLe b.specificity a.specificity) :=
  ⟨fun a b => by unfold specLe; omega⟩

instance : IsTrans Selector (fun a b => specLe b.specificity a.specificity) :=
  ⟨fun a b c h1 h2 => by unfold specLe at *; omega⟩

/-! ## Theorems -/

/-! ### Basic facts about the specificity order and the scanner -/

theorem specLe_total (x y : Specificity) : specLe x y ∨ specLe y x := by
  unfold specLe; omega

theorem specLe_trans {x y z : Specificity} (h1 : specLe x y) (h2 : specLe y z) :
    specLe x z := by
  unfold specLe at *; omega

theorem specLe_refl (x : Specificity) : specLe x x := by
  unfold specLe; omega

theorem consume_while_aux_all (cond : Char → Bool) (l : List Char)
    (h : ∀ c ∈ l, cond c = true) : consume_while_aux cond l = (l, l.length) := by
  induction l with
  | nil => rfl
  | cons c cs ih =>
    have hc : cond c = true := h c (List.mem_cons_self c cs)
    simp only [consume_while_aux, hc, if_true,
      ih (fun x hx => h x (List.mem_cons_of_mem c hx)), List.length_cons]

theorem consume_whitespace_all (l : List Char) (h : ∀ c ∈ l, rust_is_whitespace c) :
    consume_whitespace ⟨0, l⟩ = ⟨l.length, l⟩ := by
  simp only [consume_whitespace, consume_while, List.drop_zero,
    consume_while_aux_all rust_is_whitespace l h, Nat.zero_add]

/-! ### Claim C10: empty or all-whitespace input parses to zero rules -/

/-- C10: parsing an empty input string, or an input consisting only of
whitespace characters, succeeds and returns a stylesheet containing
zero rules (`parse_rules` skips leading whitespace and stops at end of
input before ever parsing a rule). -/
theorem C10_parse_whitespace_empty (source : String)
    (h : ∀ c ∈ source.toList, rust_is_whitespace c) :
    parse source = .ok ⟨[]⟩ ⟨source.toList.length, source.toList⟩ := by
  show PResult.unwrapThen _ _ = _
  rw [show PState.ofStr source = ⟨0, source.toList⟩ from rfl]
  rw [parse_rules_loop]
  rw [consume_whitespace_all source.toList h]
  have he : eof ⟨source.toList.length, source.toList⟩ = true := by
    simp [eof]
  rw [he]
  rfl

/-- Witness for C10 at the empty input, at a concrete all-whitespace
input, and at an input made of vertical tab, form feed, NEL and
ideographic space (whitespace for Rust's `char::is_whitespace` though
not for Lean's `Char.isWhitespace`). -/
theorem C10_witness :
    parse ("") = .ok ⟨[]⟩ ⟨0, []⟩ ∧
    parse (" \t\n") = .ok ⟨[]⟩ ⟨3, [' ', '\t', '\n']⟩ ∧
    parse ("\x0b\x0c\x85　") = .ok ⟨[]⟩ ⟨4, ['\x0b', '\x0c', '\x85', '　']⟩ := by
  refine ⟨?_, ?_, ?_⟩
  · exact C10_parse_whitespace_empty ("") (by decide)
  · exact C10_parse_whitespace_empty (" \t\n") (by decide)
  · exact C10_parse_whitespace_empty ("\x0b\x0c\x85　") (by decide)

/-! ### Claim C8: hex color literals -/

/-- C8: parsing a well-formed color literal — `#` followed by three
2-digit hexadecimal pairs — yields a `Color` whose `r`, `g`, `b`
channels are the values of the three pairs and whose alpha channel is
255; in particular `"#000000"` yields `{r:0,g:0,b:0,a:255}` and
`"#ffffff"` yields `{255,255,255,255}`. -/
theorem C8_parse_color_hex :
    (∀ (c1 c2 c3 c4 c5 c6 : Char) (d1 d2 d3 d4 d5 d6 : Nat),
      hex_digit_val c1 = some d1 → hex_digit_val c2 = some d2 →
      hex_digit_val c3 = some d3 → hex_digit_val c4 = some d4 →
      hex_digit_val c5 = some d5 → hex_digit_val c6 = some d6 →
      parse_color ⟨0, ['#', c1, c2, c3, c4, c5, c6]⟩ =
        .ok (Value.ColorValue ⟨16 * d1 + d2, 16 * d3 + d4, 16 * d5 + d6, 255⟩)
          ⟨7, ['#', c1, c2, c3, c4, c5, c6]⟩) ∧
    parse_color (PState.ofStr ("#000000")) =
      .ok (Value.ColorValue ⟨0, 0, 0, 255⟩) ⟨7, "#000000".toList⟩ ∧
    parse_color (PState.ofStr ("#ffffff")) =
      .ok (Value.ColorValue ⟨255, 255, 255, 255⟩) ⟨7, "#ffffff".toList⟩ := by
  refine ⟨?_, by decide, by decide⟩
  intro c1 c2 c3 c4 c5 c6 d1 d2 d3 d4 d5 d6 h1 h2 h3 h4 h5 h6
  have n1 : c1 ≠ '+' := by
    intro he; rw [he] at h1; exact Option.noConfusion h1
  have n3 : c3 ≠ '+' := by
    intro he; rw [he] at h3; exact Option.noConfusion h3
  have n5 : c5 ≠ '+' := by
    intro he; rw [he] at h5; exact Option.noConfusion h5
  simp only [parse_color, consume_char, parse_hex_pair, from_str_radix16,
    PResult.andThen, List.drop, List.head?, if_pos, if_neg, n1, n3, n5,
    ite_false, List.getElem?_cons_zero, List.getElem?_cons_succ,
    h1, h2, h3, h4, h5, h6, ite_true, if_true]

/-- Witness for C8 at the concrete literal `"#1a2B3c"`. -/
theorem C8_witness :
    parse_color ⟨0, ['#', '1', 'a', '2', 'B', '3', 'c']⟩ =
      .ok (Value.ColorValue ⟨26, 43, 60, 255⟩)
        ⟨7, ['#', '1', 'a', '2', 'B', '3', 'c']⟩ :=
  C8_parse_color_hex.1 '1' 'a' '2' 'B' '3' 'c' 1 10 2 11 3 12
    (by decide) (by decide) (by decide) (by decide) (by decide) (by decide)

/-! ### Claim C7: error behaviour of the parse entry point -/

/-- C7 (claim refuted by the code): the spec requires every malformed
stylesheet to surface as a structured error carrying a byte offset and
an expected-token description, with no process abort; the code instead
panics (`unwrap` of a plain-string error with no offset) — here
evaluated on a stylesheet with an unrecognized unit, where `parse`
aborts with the bare message produced by `parse_unit`. -/
theorem C7_parse_panics_on_malformed :
    parse ("p \x7b margin: 1em; \x7d") = .panic ("unrecognized unit") ∧
    parse ("p \x7b color: red \x7d") = .panic ("assertion failed") ∧
    parse ("p \x7b color: #ff00 ; \x7d") = .panic ("invalid digit found in string") := by
  refine ⟨by decide, by decide, by decide⟩

/-! ### Claim C6: comment nodes abort resolution -/

/-- C6 (claim refuted by the code): the spec requires comment nodes to
receive an empty property map and participate in the resolved tree;
the code's `NodeType::Comment(_) => todo!()` panics instead, so
resolution of any tree containing a comment node aborts (modelled by
`none`), even when the comment is buried among ordinary children. -/
theorem C6_comment_node_panics :
    style_tree (Node.mk [] (NodeType.Comment ("c"))) ⟨[]⟩ = none ∧
    style_tree
      (Node.mk [Node.mk [] (NodeType.Text ("t")), Node.mk [] (NodeType.Comment ("c"))]
        (NodeType.Element ⟨"p", fun _ => none⟩)) ⟨[]⟩ = none := by
  constructor
  · rw [style_tree]
    rfl
  · simp [style_tree, style_children, node_pm, specified_values]

/-! ### Claim C9: the classes() accessor -/

/-- C9 counterexample: the claim says `classes()` splits the class
attribute on *whitespace*; the code splits on the single space
character only.  For a class attribute `"a\tb"` (a tab separator) the
whitespace split contains `"a"` but the code's result is the single
name `"a\tb"`, so the two sets differ. -/
theorem C9_counterexample :
    ¬ (∀ c : String,
        c ∈ ElementData.classes ⟨"p", fun k => if k = "class" then some ("a\tb") else none⟩ ↔
        c ∈ classes_spec_ws ⟨"p", fun k => if k = "class" then some ("a\tb") else none⟩) := by
  intro h
  have h1 := (h ("a")).mpr
  have h2 : ("a" : String) ∈
      classes_spec_ws ⟨"p", fun k => if k = "class" then some ("a\tb") else none⟩ := by
    decide
  have h3 := h1 h2
  revert h3
  decide

/-- C9 (amended): `classes()` returns the element's class attribute
split on the single space character `' '` as a set of class names (the
fragments, empty fragments included), and the empty set when the class
attribute is absent. -/
theorem C9_classes_space_split (e : ElementData) :
    (∀ cl, e.attributes ("class") = some cl →
      ∀ c : String,
        (c ∈ e.classes ↔ c ∈ (split_when (fun ch => ch = ' ') cl.toList).map String.mk)) ∧
    (e.attributes ("class") = none → e.classes = []) := by
  constructor
  · intro cl hcl c
    rw [ElementData.classes, hcl]
  · intro hnone
    rw [ElementData.classes, hnone]

/-- Witness for C9 (amended) at concrete elements with and without a
class attribute. -/
theorem C9_witness :
    (("a" : String) ∈ ElementData.classes
        ⟨"p", fun k => if k = "class" then some ("a b") else none⟩ ↔
      ("a" : String) ∈ (split_when (fun ch => ch = ' ') ("a b").toList).map String.mk) ∧
    ElementData.classes ⟨"p", fun _ => none⟩ = [] := by
  refine ⟨?_, ?_⟩
  · exact (C9_classes_space_split ⟨"p", fun k => if k = "class" then some ("a b") else none⟩).1
      ("a b") rfl ("a")
  · exact (C9_classes_space_split ⟨"p", fun _ => none⟩).2 rfl

/-! ### Claim C3: the specificity triple and its lexicographic order -/

/-- C3: `specificity` returns the triple (number of id components,
number of class components, number of concrete tag-name components);
the universal selector `*` (which parses to no tag constraint) and an
absent tag contribute 0 to the type count; and — by lexicographic
comparison — any selector with an id component strictly outranks any
selector with only class and type components. -/
theorem C3_specificity_triple :
    (∀ simple : SimpleSelector,
      Selector.specificity (.Simple simple) =
        ((if simple.id.isSome then 1 else 0), simple.classes.length,
          (if simple.tag_name.isSome then 1 else 0))) ∧
    (∀ s1 s2 : SimpleSelector, s1.id.isSome → s2.id = none →
      specLe (Selector.specificity (.Simple s2)) (Selector.specificity (.Simple s1)) ∧
      ¬ specLe (Selector.specificity (.Simple s1)) (Selector.specificity (.Simple s2))) ∧
    (parse_simple_selector 2 (PState.ofStr ("*")) = .ok ⟨none, none, []⟩ ⟨1, ['*']⟩ ∧
      Selector.specificity (.Simple ⟨none, none, []⟩) = (0, 0, 0)) := by
  refine ⟨?_, ?_, by decide, by decide⟩
  · intro simple
    rw [Selector.specificity]
    cases simple.id <;> cases simple.tag_name <;> rfl
  · intro s1 s2 h1 h2
    rw [Option.isSome_iff_exists] at h1
    obtain ⟨i, hi⟩ := h1
    simp [Selector.specificity, hi, h2, optCount, specLe]

/-- Witness for C3 at a concrete id selector versus a concrete
class-and-tag selector. -/
theorem C3_witness :
    (Option.isSome (some ("main")) = true ∧ (none : Option String) = none) ∧
    (specLe (Selector.specificity (.Simple ⟨some ("p"), none, ["a", "b"]⟩))
        (Selector.specificity (.Simple ⟨none, some ("main"), []⟩)) ∧
      ¬ specLe (Selector.specificity (.Simple ⟨none, some ("main"), []⟩))
        (Selector.specificity (.Simple ⟨some ("p"), none, ["a", "b"]⟩))) :=
  ⟨⟨rfl, rfl⟩,
    C3_specificity_triple.2.1 ⟨none, some ("main"), []⟩ ⟨some ("p"), none, ["a", "b"]⟩ rfl rfl⟩

/-! ### Claim C4: simple-selector matching -/

/-- C4: matching a simple selector against an element fails exactly
when the selector specifies a tag name different from the element's
tag, or specifies an id different from the element's id attribute (in
particular when the element has no id attribute), or contains a class
absent from the element's class set; and the selector with no tag, no
id and no classes matches every element. -/
theorem C4_matches_characterization (elem : ElementData) (sel : SimpleSelector) :
    (matches_simple_selector elem sel = false ↔
      (∃ t, sel.tag_name = some t ∧ elem.tag_name ≠ t) ∨
      (∃ i, sel.id = some i ∧ elem.id ≠ some i) ∨
      (∃ c, c ∈ sel.classes ∧ ¬ elem.classes.contains c)) ∧
    matches_simple_selector elem ⟨none, none, []⟩ = true := by
  constructor
  · rw [matches_simple_selector]
    obtain ⟨tn, idn, cls⟩ := sel
    cases tn <;> cases idn <;>
      simp [Option.any, List.any_eq_true, decide_eq_true_iff] <;>
      tauto
  · rfl

/-! ### Claim C2: selector sorting inside a rule and first-match specificity -/

theorem filter_specEq_orderedInsert (x : Selector) (L : List Selector) (sp : Specificity) :
    (L.orderedInsert (fun a b => specLe b.specificity a.specificity) x).filter
        (fun a => decide (a.specificity = sp)) =
      (x :: L).filter (fun a => decide (a.specificity = sp)) := by
  have hL : (L.takeWhile fun b => decide ¬ (specLe b.specificity x.specificity)).filter
        (fun a => decide (a.specificity = sp)) ++
      (L.dropWhile fun b => decide ¬ (specLe b.specificity x.specificity)).filter
        (fun a => decide (a.specificity = sp)) =
      L.filter (fun a => decide (a.specificity = sp)) := by
    rw [← List.filter_append, List.takeWhile_append_dropWhile]
  rw [List.orderedInsert_eq_take_drop, List.filter_append]
  by_cases hx : x.specificity = sp
  · have htw : (L.takeWhile fun b => decide ¬ (specLe b.specificity x.specificity)).filter
        (fun a => decide (a.specificity = sp)) = [] := by
      rw [List.filter_eq_nil_iff]
      intro b hb
      have hpb := List.mem_takeWhile_imp hb
      simp only [decide_eq_true_iff] at hpb ⊢
      intro hbsp
      exact hpb (by rw [hbsp, hx]; exact specLe_refl sp)
    have hpx : (decide (x.specificity = sp)) = true := by
      simp [hx]
    rw [htw] at hL ⊢
    rw [List.nil_append] at hL
    rw [List.nil_append, List.filter_cons, List.filter_cons, hpx, hL]
  · have hpx : (decide (x.specificity = sp)) = false := by
      simp [hx]
    simp only [List.filter_cons, hpx, Bool.false_eq_true, if_false]
    exact hL

theorem filter_specEq_sortSelectorsDesc (L : List Selector) (sp : Specificity) :
    (sortSelectorsDesc L).filter (fun a => decide (a.specificity = sp)) =
      L.filter (fun a => decide (a.specificity = sp)) := by
  induction L with
  | nil => rfl
  | cons x L ih =>
    show (List.orderedInsert _ x (List.insertionSort _ L)).filter _ = _
    rw [filter_specEq_orderedInsert x (List.insertionSort _ L) sp]
    simp only [List.filter_cons]
    rw [show (List.insertionSort (fun a b => specLe b.specificity a.specificity) L).filter
          (fun a => decide (a.specificity = sp)) =
        L.filter (fun a => decide (a.specificity = sp)) from ih]

/-- C2: after parsing, the selectors of every rule are sorted in
descending specificity order, and the sort is stable (elements of any
one specificity keep their source order, expressed as equality of the
specificity-class filters before and after the sort); when a rule is
matched against an element, the first matching selector in that order
determines the recorded specificity (`find?` decomposition); and the
selector list `"body, p"` matched against a `<p>` element with no
id/class yields specificity `(0, 0, 1)` via the second selector. -/
theorem C2_selector_order :
    (∀ (fuel : Nat) (st : PState) (sels : List Selector) (st1 : PState),
      parse_selectors fuel st = .ok sels st1 →
      sels.Sorted (fun a b => specLe b.specificity a.specificity)) ∧
    (∀ (fuel : Nat) (st : PState) (raw : List Selector) (st1 : PState)
        (sels : List Selector) (st2 : PState),
      parse_selectors_loop fuel [] st = .ok raw st1 →
      parse_selectors fuel st = .ok sels st2 →
      ∀ sp : Specificity,
        sels.filter (fun a => decide (a.specificity = sp)) =
          raw.filter (fun a => decide (a.specificity = sp))) ∧
    (∀ (elem : ElementData) (rule : Rule) (sp : Specificity) (r1 : Rule),
      match_rule elem rule = some (sp, r1) →
      r1 = rule ∧ ∃ sel pre post, rule.selectors = pre ++ sel :: post ∧
        matches_sel elem sel = true ∧ (∀ x ∈ pre, matches_sel elem x = false) ∧
        sp = sel.specificity) ∧
    (parse_selectors 8 (PState.ofStr ("body, p")) =
      .ok [Selector.Simple ⟨some ("body"), none, []⟩, Selector.Simple ⟨some ("p"), none, []⟩]
        ⟨7, "body, p".toList⟩ ∧
     match_rule ⟨"p", fun _ => none⟩
        ⟨[Selector.Simple ⟨some ("body"), none, []⟩, Selector.Simple ⟨some ("p"), none, []⟩], []⟩ =
      some ((0, 0, 1),
        ⟨[Selector.Simple ⟨some ("body"), none, []⟩, Selector.Simple ⟨some ("p"), none, []⟩], []⟩)) := by
  refine ⟨?_, ?_, ?_, by decide, by decide⟩
  · intro fuel st sels st1 h
    rw [parse_selectors] at h
    cases hloop : parse_selectors_loop fuel [] st with
    | ok raw s1 =>
      rw [hloop] at h
      cases h
      exact List.sorted_insertionSort _ raw
    | err e s1 => rw [hloop] at h; cases h
    | panic m => rw [hloop] at h; cases h
  · intro fuel st raw st1 sels st2 hloop h sp
    rw [parse_selectors, hloop] at h
    cases h
    exact filter_specEq_sortSelectorsDesc raw sp
  · intro elem rule sp r1 h
    rw [match_rule] at h
    cases hf : rule.selectors.find? (matches_sel elem) with
    | none => rw [hf] at h; cases h
    | some sel =>
      rw [hf, Option.map_some'] at h
      injection h with h
      injection h with h1 h2
      refine ⟨h2.symm, sel, ?_⟩
      rw [List.find?_eq_some] at hf
      obtain ⟨hsel, pre, post, hdecomp, hpre⟩ := hf
      refine ⟨pre, post, hdecomp, hsel, ?_, h1.symm⟩
      intro x hx
      have := hpre x hx
      simpa using this

/-- Witness for C2: the parse of `"body, p"`, its sortedness and
stability conclusions, and the first-match conclusion against `<p>`,
all at concrete inputs. -/
theorem C2_witness :
    List.Sorted (fun a b => specLe b.specificity a.specificity)
      [Selector.Simple ⟨some ("body"), none, []⟩, Selector.Simple ⟨some ("p"), none, []⟩] ∧
    ([Selector.Simple ⟨some ("body"), none, []⟩,
        Selector.Simple ⟨some ("p"), none, []⟩].filter
      (fun a => decide (a.specificity = ((0, 0, 1) : Specificity))) =
      [Selector.Simple ⟨some ("body"), none, []⟩,
        Selector.Simple ⟨some ("p"), none, []⟩].filter
      (fun a => decide (a.specificity = ((0, 0, 1) : Specificity)))) ∧
    (∃ sel pre post,
      (Rule.mk [Selector.Simple ⟨some ("body"), none, []⟩,
        Selector.Simple ⟨some ("p"), none, []⟩] []).selectors = pre ++ sel :: post ∧
      matches_sel ⟨"p", fun _ => none⟩ sel = true ∧
      (∀ x ∈ pre, matches_sel ⟨"p", fun _ => none⟩ x = false) ∧
      ((0, 0, 1) : Specificity) = sel.specificity) :=
  ⟨C2_selector_order.1 8 (PState.ofStr ("body, p"))
      [Selector.Simple ⟨some ("body"), none, []⟩, Selector.Simple ⟨some ("p"), none, []⟩]
      ⟨7, "body, p".toList⟩ (by decide),
   C2_selector_order.2.1 8 (PState.ofStr ("body, p"))
      [Selector.Simple ⟨some ("body"), none, []⟩, Selector.Simple ⟨some ("p"), none, []⟩]
      ⟨7, "body, p".toList⟩
      [Selector.Simple ⟨some ("body"), none, []⟩, Selector.Simple ⟨some ("p"), none, []⟩]
      ⟨7, "body, p".toList⟩ (by decide) (by decide) (0, 0, 1),
   (C2_selector_order.2.2.1 ⟨"p", fun _ => none⟩
      ⟨[Selector.Simple ⟨some ("body"), none, []⟩, Selector.Simple ⟨some ("p"), none, []⟩], []⟩
      (0, 0, 1)
      ⟨[Selector.Simple ⟨some ("body"), none, []⟩, Selector.Simple ⟨some ("p"), none, []⟩], []⟩
      (by decide)).2⟩

/-! ### Claim C1: the cascade -/

/-- Inserting a declaration list into a property map: looking up `p`
afterwards returns the last declaration of `p` in the list, else the
old binding. -/
theorem pm_fold_decls (ds : List Declaration) (m : PropertyMap) (p : String) :
    (ds.foldl (fun v d => pmInsert d.name d.value v) m) p =
      match last_decl_value p ds with
      | some v => some v
      | none => m p := by
  induction ds generalizing m with
  | nil => rfl
  | cons d ds ih =>
    rw [List.foldl_cons, ih, last_decl_value]
    cases last_decl_value p ds with
    | some v => rfl
    | none =>
      show pmInsert d.name d.value m p = _
      rw [pmInsert]
      by_cases hdp : d.name = p
      · rw [if_pos hdp.symm, if_pos hdp]
      · rw [if_neg (fun hc => hdp hc.symm), if_neg hdp]

/-- Folding a matched-rule list into a property map: looking up `p`
afterwards returns the binding of the *last* rule in the list that
declares `p` (with that rule's last declaration of `p`), else the old
binding. -/
theorem pm_fold_rules (rs : List MatchedRule) (m : PropertyMap) (p : String) :
    (rs.foldl
        (fun values sr => sr.2.declarations.foldl (fun v d => pmInsert d.name d.value v) values)
        m) p =
      match lastPick p rs with
      | some sv => some sv.2
      | none => m p := by
  induction rs generalizing m with
  | nil => rfl
  | cons sr rs ih =>
    obtain ⟨s, r⟩ := sr
    rw [List.foldl_cons, ih, lastPick]
    cases lastPick p rs with
    | some sv => rfl
    | none =>
      rw [pm_fold_decls]
      cases last_decl_value p r.declarations with
      | some v => rfl
      | none => rfl

/-- A `some` result of `lastPick` comes from a member of the list. -/
theorem lastPick_mem (p : String) (L : List MatchedRule) (s1 : Specificity) (v1 : Value)
    (h : lastPick p L = some (s1, v1)) :
    ∃ rl, (s1, rl) ∈ L ∧ last_decl_value p rl.declarations = some v1 := by
  induction L with
  | nil => cases h
  | cons sr L ih =>
    obtain ⟨s, r⟩ := sr
    rw [lastPick] at h
    cases hrest : lastPick p L with
    | some sv =>
      rw [hrest] at h
      injection h with h
      obtain ⟨rl, hmem, hld⟩ := ih (hrest.trans (congrArg some h))
      exact ⟨rl, List.mem_cons_of_mem _ hmem, hld⟩
    | none =>
      rw [hrest] at h
      cases hld : last_decl_value p r.declarations with
      | none => rw [hld] at h; cases h
      | some v =>
        rw [hld, Option.map_some'] at h
        injection h with h
        injection h with h1 h2
        exact ⟨r, by rw [← h1]; exact List.mem_cons_self _ _, by rw [hld, h2]⟩

/-- Inserting one matched rule into a specificity-sorted matched-rule
list: the last `p`-declaring binding of the result combines the
inserted rule with the list's own last `p`-declaring binding exactly
as one step of the claim's cascade rule. -/
theorem lastPick_orderedInsert (x : MatchedRule) (N : List MatchedRule)
    (hN : N.Sorted (fun a b => specLe a.1 b.1)) (p : String) :
    lastPick p (N.orderedInsert (fun a b => specLe a.1 b.1) x) =
      match lastPick p N, last_decl_value p x.2.declarations with
      | none, none => none
      | none, some v => some (x.1, v)
      | some sv, none => some sv
      | some (s1, v1), some v =>
          if specLe x.1 s1 then some (s1, v1) else some (x.1, v) := by
  induction N with
  | nil =>
    rw [List.orderedInsert, lastPick, lastPick]
    cases last_decl_value p x.2.declarations with
    | none => rfl
    | some v => rfl
  | cons y N ih =>
    rw [List.sorted_cons] at hN
    obtain ⟨hy, hN1⟩ := hN
    rw [List.orderedInsert]
    by_cases hr : specLe x.1 y.1
    · rw [if_pos hr, lastPick]
      cases hyn : lastPick p (y :: N) with
      | some sv =>
        obtain ⟨s1, v1⟩ := sv
        obtain ⟨rl, hmem, _⟩ := lastPick_mem p (y :: N) s1 v1 hyn
        have hxs : specLe x.1 s1 := by
          rcases List.mem_cons.mp hmem with hh | hh
          · have : s1 = y.1 := congrArg Prod.fst hh
            rw [this]; exact hr
          · exact specLe_trans hr (hy (s1, rl) hh)
        cases last_decl_value p x.2.declarations with
        | none => rfl
        | some v =>
          show some (s1, v1) = if specLe x.1 s1 then some (s1, v1) else some (x.1, v)
          rw [if_pos hxs]
      | none =>
        cases last_decl_value p x.2.declarations with
        | none => rfl
        | some v => rfl
    · rw [if_neg hr, lastPick, ih hN1, lastPick]
      cases hn : lastPick p N with
      | some sv =>
        obtain ⟨s1, v1⟩ := sv
        cases last_decl_value p x.2.declarations with
        | none => rfl
        | some v => by_cases hxs : specLe x.1 s1 <;> simp [hxs]
      | none =>
        cases hldx : last_decl_value p x.2.declarations with
        | none =>
          cases hldy : last_decl_value p y.2.declarations with
          | none => rfl
          | some vy => rfl
        | some v =>
          cases hldy : last_decl_value p y.2.declarations with
          | none => rfl
          | some vy =>
            show some (x.1, v) = if specLe x.1 y.1 then some (y.1, vy) else some (x.1, v)
            rw [if_neg hr]

/-- The last `p`-declaring binding of the specificity-sorted
matched-rule list is exactly the claim's cascade pick over the
unsorted (stylesheet-order) list. -/
theorem lastPick_sortMatchedAsc (rs : List MatchedRule) (p : String) :
    lastPick p (sortMatchedAsc rs) = cascade_pick p rs := by
  induction rs with
  | nil => rfl
  | cons x rs ih =>
    obtain ⟨s, r⟩ := x
    show lastPick p (List.orderedInsert _ (s, r) (List.insertionSort _ rs)) = _
    rw [lastPick_orderedInsert (s, r) (List.insertionSort _ rs)
      (List.sorted_insertionSort _ rs) p]
    rw [show lastPick p (List.insertionSort (fun a b => specLe a.1 b.1) rs) =
      cascade_pick p rs from ih]
    rw [cascade_pick]

/-- C1: the property map produced by the cascade assigns to each
property the value from the highest-specificity matching rule that
declares it; among matching rules of equal specificity, the value from
the rule declared later in the stylesheet; and among multiple
declarations of the same property within one rule, the last
declaration in that rule (`cascade_pick` formalizes exactly this
wording over the matched rules in stylesheet order). -/
theorem C1_cascade :
    ∀ (elem : ElementData) (stylesheet : Stylesheet) (p : String),
      specified_values elem stylesheet p =
        (cascade_pick p (matching_rules elem stylesheet)).map (fun sv => sv.2) := by
  intro elem stylesheet p
  rw [specified_values, pm_fold_rules, lastPick_sortMatchedAsc]
  cases cascade_pick p (matching_rules elem stylesheet) with
  | none => rfl
  | some sv => rfl

/-! ### Claim C5: structural isomorphism of the resolved tree -/

theorem style_size_aux (k : Nat) :
    (∀ (t : Node) (sheet : Stylesheet) (st : StyledNode), sizeOf t ≤ k →
      style_tree t sheet = some st → Iso st t) ∧
    (∀ (ns : List Node) (sheet : Stylesheet) (ss : List StyledNode), sizeOf ns ≤ k →
      style_children ns sheet = some ss → List.Forall₂ Iso ss ns) := by
  induction k with
  | zero =>
    constructor
    · intro t sheet st hsz h
      obtain ⟨c, nt⟩ := t
      simp at hsz
    · intro ns sheet ss hsz h
      cases ns <;> simp at hsz
  | succ k ih =>
    constructor
    · intro t sheet st hsz h
      obtain ⟨children, nt⟩ := t
      rw [style_tree] at h
      cases hpm : node_pm nt sheet with
      | none => rw [hpm] at h; cases h
      | some sv =>
        cases hch : style_children children sheet with
        | none => rw [hpm, hch] at h; cases h
        | some cs =>
          rw [hpm, hch] at h
          injection h with h
          subst h
          have hc : sizeOf children ≤ k := by
            simp at hsz
            omega
          exact Iso.mk (Node.mk children nt) sv cs (ih.2 children sheet cs hc hch)
    · intro ns sheet ss hsz h
      cases ns with
      | nil =>
        rw [style_children] at h
        injection h with h
        subst h
        exact List.Forall₂.nil
      | cons n rest =>
        rw [style_children] at h
        cases hn : style_tree n sheet with
        | none => rw [hn] at h; cases h
        | some sn =>
          cases hrest : style_children rest sheet with
          | none => rw [hn, hrest] at h; cases h
          | some srest =>
            rw [hn, hrest] at h
            injection h with h
            subst h
            simp at hsz
            have h1 : sizeOf n ≤ k := by omega
            have h2 : sizeOf rest ≤ k := by omega
            exact List.Forall₂.cons (ih.1 n sheet sn h1 hn)
              (ih.2 rest sheet srest h2 hrest)

theorem style_some_aux (k : Nat) :
    (∀ (t : Node) (sheet : Stylesheet), sizeOf t ≤ k →
      comment_free t = true → (style_tree t sheet).isSome = true) ∧
    (∀ (ns : List Node) (sheet : Stylesheet), sizeOf ns ≤ k →
      comment_free_list ns = true → (style_children ns sheet).isSome = true) := by
  induction k with
  | zero =>
    constructor
    · intro t sheet hsz h
      obtain ⟨c, nt⟩ := t
      simp at hsz
    · intro ns sheet hsz h
      cases ns <;> simp at hsz
  | succ k ih =>
    constructor
    · intro t sheet hsz hcf
      obtain ⟨children, nt⟩ := t
      have hc : sizeOf children ≤ k := by
        simp at hsz
        omega
      cases nt with
      | Comment s =>
        rw [comment_free, not_comment] at hcf
        simp at hcf
      | Text s =>
        rw [comment_free, Bool.and_eq_true] at hcf
        have hch := ih.2 children sheet hc hcf.2
        rw [Option.isSome_iff_exists] at hch
        obtain ⟨cs, hcs⟩ := hch
        rw [style_tree, hcs]
        rfl
      | Element e =>
        rw [comment_free, Bool.and_eq_true] at hcf
        have hch := ih.2 children sheet hc hcf.2
        rw [Option.isSome_iff_exists] at hch
        obtain ⟨cs, hcs⟩ := hch
        rw [style_tree, hcs]
        rfl
    · intro ns sheet hsz hcf
      cases ns with
      | nil => rfl
      | cons n rest =>
        rw [comment_free_list, Bool.and_eq_true] at hcf
        obtain ⟨h1, h2⟩ := hcf
        simp at hsz
        have hn := (ih.1 n sheet (by omega) h1)
        have hrest := (ih.2 rest sheet (by omega) h2)
        rw [Option.isSome_iff_exists] at hn hrest
        obtain ⟨sn, hsn⟩ := hn
        obtain ⟨srest, hsrest⟩ := hrest
        rw [style_children, hsn, hsrest]
        rfl

/-- C5: for every document tree and stylesheet, the resolved style
tree produced by `style_tree` is structurally isomorphic to the source
tree — every resolved node references its source node and has children
matching the source node's children 1:1, in order, recursively; and on
every comment-free tree a resolved tree is in fact produced. -/
theorem C5_style_tree_iso :
    (∀ (t : Node) (sheet : Stylesheet) (st : StyledNode),
      style_tree t sheet = some st → Iso st t) ∧
    (∀ (t : Node) (sheet : Stylesheet),
      comment_free t = true → (style_tree t sheet).isSome = true) := by
  constructor
  · intro t sheet st h
    exact (style_size_aux (sizeOf t)).1 t sheet st (Nat.le_refl _) h
  · intro t sheet h
    exact (style_some_aux (sizeOf t)).1 t sheet (Nat.le_refl _) h

/-- Witness for C5 at a concrete two-node document tree and the empty
stylesheet. -/
theorem C5_witness :
    Iso (StyledNode.mk (Node.mk [Node.mk [] (NodeType.Text ("hi"))]
          (NodeType.Element ⟨"p", fun _ => none⟩))
        (specified_values ⟨"p", fun _ => none⟩ ⟨[]⟩)
        [StyledNode.mk (Node.mk [] (NodeType.Text ("hi"))) pmEmpty []])
      (Node.mk [Node.mk [] (NodeType.Text ("hi"))] (NodeType.Element ⟨"p", fun _ => none⟩)) ∧
    (style_tree (Node.mk [Node.mk [] (NodeType.Text ("hi"))]
        (NodeType.Element ⟨"p", fun _ => none⟩)) ⟨[]⟩).isSome = true := by
  constructor
  · exact C5_style_tree_iso.1 _ ⟨[]⟩ _
      (by simp [style_tree, style_children, node_pm])
  · exact C5_style_tree_iso.2 _ ⟨[]⟩
      (by simp [comment_free, comment_free_list, not_comment])

end Webwraith
